import Mathlib

/-!
Verification of the status-tracking daemon of `claude-code-ui`.

The definitions below are a shallow embedding of the TypeScript sources
`packages/daemon/src/status-machine.ts`, `status.ts` and `watcher.ts`:
the XState machine becomes an explicit transition function, the actor run
becomes a fold over the entry list, JavaScript timestamps become an
explicit `parseTime : String → Int` parameter plus an integer `now`
(the source calls `new Date(s).getTime()` and `Date.now()`), and the
watcher's in-memory `Map`s become association lists.
-/

namespace Daemon

/-! ## Data model (types.ts) -/

/-- Content block of a user message: `TextBlock`, `ToolResultBlock` or
`ImageBlock` from types.ts (only the fields the daemon reads are kept). -/
inductive UserContentBlock where
  | text (text : String)
  | toolResult (toolUseId : String) (content : String)
  | image (mediaType : String) (data : String)
deriving Repr, DecidableEq

/-- A user message's `content` field: either a plain string or an array of
content blocks (types.ts, `UserEntry.message.content`). -/
inductive UserContent where
  | str (s : String)
  | blocks (blocks : List UserContentBlock)
deriving Repr, DecidableEq

/-- Content block of an assistant message: `TextBlock`, `ToolUseBlock` or
`ThinkingBlock` from types.ts. -/
inductive AssistantContentBlock where
  | text (text : String)
  | toolUse (id : String) (name : String)
  | thinking (thinking : String)
deriving Repr, DecidableEq

/-- The `LogEntry` tagged union of types.ts, restricted to the fields the
status machinery reads: the entry kind, the timestamp, the user/assistant
content, and the system entry's `subtype`. -/
inductive LogEntry where
  | user (timestamp : String) (content : UserContent)
  | assistant (timestamp : String) (content : List AssistantContentBlock)
  | system (timestamp : String) (subtype : String)
  | queueOperation (timestamp : String)
  | fileHistorySnapshot
deriving Repr, DecidableEq

/-! ## Status machine (status-machine.ts) -/

/-- `StatusContext` from status-machine.ts. -/
structure StatusContext where
  lastActivityAt : String
  messageCount : Nat
  hasPendingToolUse : Bool
  pendingToolIds : List String
deriving Repr, DecidableEq

/-- `StatusEvent` from status-machine.ts. -/
inductive StatusEvent where
  | userPrompt (timestamp : String)
  | toolResult (timestamp : String) (toolUseIds : List String)
  | assistantStreaming (timestamp : String)
  | assistantToolUse (timestamp : String) (toolUseIds : List String)
  | turnEnd (timestamp : String)
  | approvalTimeout
  | staleTimeout
deriving Repr, DecidableEq

/-- `StatusState` from status-machine.ts. -/
inductive StatusState where
  | working
  | waiting_for_approval
  | waiting_for_input
deriving Repr, DecidableEq

/-- Initial state of `statusMachine` (`initial: "waiting_for_input"`). -/
def initialState : StatusState := .waiting_for_input

/-- Initial context of `statusMachine` (the context factory function). -/
def initialContext : StatusContext :=
  { lastActivityAt := "", messageCount := 0
    hasPendingToolUse := false, pendingToolIds := [] }

/-- One transition of `statusMachine`.  Each arm mirrors one `on:` handler
of the XState machine; an event with no handler in the current state is
ignored (XState semantics), which the final catch-all arm encodes. -/
def step (state : StatusState) (ctx : StatusContext) (event : StatusEvent) :
    StatusState × StatusContext :=
  match state, event with
  | .working, .userPrompt ts =>
      (.working, { ctx with lastActivityAt := ts, messageCount := ctx.messageCount + 1
                            hasPendingToolUse := false, pendingToolIds := [] })
  | .working, .assistantStreaming ts =>
      (.working, { ctx with lastActivityAt := ts })
  | .working, .assistantToolUse ts ids =>
      (.working, { ctx with lastActivityAt := ts, messageCount := ctx.messageCount + 1
                            hasPendingToolUse := true, pendingToolIds := ids })
  | .working, .toolResult ts ids =>
      let remaining := ctx.pendingToolIds.filter (fun id => !(ids.contains id))
      (.working, { ctx with lastActivityAt := ts, messageCount := ctx.messageCount + 1
                            pendingToolIds := remaining
                            hasPendingToolUse := decide (remaining.length > 0) })
  | .working, .turnEnd ts =>
      (.waiting_for_input,
        { ctx with lastActivityAt := ts
                   hasPendingToolUse := false, pendingToolIds := [] })
  | .working, .approvalTimeout => (.waiting_for_approval, ctx)
  | .working, .staleTimeout => (.waiting_for_input, { ctx with hasPendingToolUse := false })
  | .waiting_for_approval, .toolResult ts ids =>
      let remaining := ctx.pendingToolIds.filter (fun id => !(ids.contains id))
      (.working, { ctx with lastActivityAt := ts, messageCount := ctx.messageCount + 1
                            pendingToolIds := remaining
                            hasPendingToolUse := decide (remaining.length > 0) })
  | .waiting_for_input, .userPrompt ts =>
      (.working, { ctx with lastActivityAt := ts, messageCount := ctx.messageCount + 1 })
  | .waiting_for_input, .assistantStreaming ts =>
      (.waiting_for_input, { ctx with lastActivityAt := ts })
  | .waiting_for_input, .turnEnd ts =>
      (.waiting_for_input, { ctx with lastActivityAt := ts })
  | s, _ => (s, ctx)

/-- The fixed `autoApprovedTools` set of `logEntryToEvent`. -/
def autoApprovedTools : List String :=
  ["Task", "Read", "Glob", "Grep", "WebSearch", "WebFetch", "TodoWrite",
   "AskUserQuestion", "NotebookEdit", "TaskOutput"]

/-- Predicate `b.type === "tool_result"` on a user content block. -/
def isToolResultBlock : UserContentBlock → Bool
  | .toolResult _ _ => true
  | _ => false

/-- Predicate `b.type === "text"` on a user content block. -/
def isTextBlock : UserContentBlock → Bool
  | .text _ => true
  | _ => false

/-- Projection `b.tool_use_id` of a user content block; other blocks have
no such field (the source only applies it after filtering). -/
def toolResultId : UserContentBlock → String
  | .toolResult id _ => id
  | _ => ""

/-- Predicate of the assistant filter in `logEntryToEvent`:
`b.type === "tool_use" && !autoApprovedTools.has(b.name)`. -/
def isNonAutoToolUse : AssistantContentBlock → Bool
  | .toolUse _ name => !(autoApprovedTools.contains name)
  | _ => false

/-- The map `b.type === "tool_use" ? b.id : ""` of `logEntryToEvent`. -/
def assistantBlockId : AssistantContentBlock → String
  | .toolUse id _ => id
  | _ => ""

/-- `logEntryToEvent` from status-machine.ts: pure mapping from a log
entry to at most one status event. -/
def logEntryToEvent : LogEntry → Option StatusEvent
  | .user ts content =>
    match content with
    | .str _ => some (.userPrompt ts)
    | .blocks bs =>
      let toolUseIds := (bs.filter isToolResultBlock).map toolResultId
      if toolUseIds.length > 0 then
        some (.toolResult ts toolUseIds)
      else if bs.any isTextBlock then
        some (.userPrompt ts)
      else
        none
  | .assistant ts content =>
    let toolUseBlocks := content.filter isNonAutoToolUse
    if toolUseBlocks.length > 0 then
      some (.assistantToolUse ts (toolUseBlocks.map assistantBlockId))
    else
      some (.assistantStreaming ts)
  | .system ts subtype =>
    if subtype == "turn_duration" || subtype == "stop_hook_summary" then
      some (.turnEnd ts)
    else
      none
  | .queueOperation _ => none
  | .fileHistorySnapshot => none

/-- Sending one log entry to the running actor: entries that map to no
event leave the actor untouched. -/
def applyEntry (sc : StatusState × StatusContext) (entry : LogEntry) :
    StatusState × StatusContext :=
  match logEntryToEvent entry with
  | some ev => step sc.1 sc.2 ev
  | none => sc

/-- The replay loop of `deriveStatusFromMachine`: a fresh actor processes
every entry in order. -/
def replayMachine (entries : List LogEntry) : StatusState × StatusContext :=
  entries.foldl applyEntry (initialState, initialContext)

/-- `APPROVAL_TIMEOUT_MS` (15 seconds). -/
def APPROVAL_TIMEOUT_MS : Int := 15 * 1000

/-- `STALE_TIMEOUT_MS` (60 seconds). -/
def STALE_TIMEOUT_MS : Int := 60 * 1000

/-- The `lastActivityTime` computation of `deriveStatusFromMachine`:
`context.lastActivityAt ? new Date(context.lastActivityAt).getTime() : 0`
(the empty string is falsy in JavaScript). -/
def lastActivityTime (parseTime : String → Int) (lastActivityAt : String) : Int :=
  if lastActivityAt == "" then 0 else parseTime lastActivityAt

/-- `deriveStatusFromMachine` from status-machine.ts: replay all entries,
then inject at most one synthetic timeout event by comparing `now` with
the last activity timestamp. -/
def deriveStatusFromMachine (parseTime : String → Int) (now : Int)
    (entries : List LogEntry) : StatusState × StatusContext :=
  let sc := replayMachine entries
  let state := sc.1
  let ctx := sc.2
  let timeSinceActivity := now - lastActivityTime parseTime ctx.lastActivityAt
  if state = .working ∧ ctx.hasPendingToolUse = true ∧
      timeSinceActivity > APPROVAL_TIMEOUT_MS then
    step state ctx .approvalTimeout
  else if state = .working ∧ ctx.hasPendingToolUse = false ∧
      timeSinceActivity > STALE_TIMEOUT_MS then
    step state ctx .staleTimeout
  else
    sc

/-! ## Status result (status.ts, types.ts) -/

/-- `SessionStatus` from types.ts. -/
inductive SessionStatus where
  | working
  | waiting
  | idle
deriving Repr, DecidableEq

/-- The `lastRole` field's type in `StatusResult`. -/
inductive Role where
  | user
  | assistant
deriving Repr, DecidableEq

/-- `StatusResult` from types.ts. -/
structure StatusResult where
  status : SessionStatus
  lastRole : Role
  hasPendingToolUse : Bool
  lastActivityAt : String
  messageCount : Nat
deriving Repr, DecidableEq

/-- `machineStatusToResult` from status-machine.ts: maps the three machine
states onto the two UI states and hard-codes `lastRole: "assistant"`. -/
def machineStatusToResult (machineStatus : StatusState) (ctx : StatusContext) :
    StatusResult :=
  { status := if machineStatus = .working then .working else .waiting
    lastRole := .assistant
    hasPendingToolUse := ctx.hasPendingToolUse
    lastActivityAt := ctx.lastActivityAt
    messageCount := ctx.messageCount }

/-- `deriveStatus` from status.ts. -/
def deriveStatus (parseTime : String → Int) (now : Int)
    (entries : List LogEntry) : StatusResult :=
  let sc := deriveStatusFromMachine parseTime now entries
  machineStatusToResult sc.1 sc.2

/-- `statusChanged` from status.ts (`prev` may be null/undefined). -/
def statusChanged (prev : Option StatusResult) (next : StatusResult) : Bool :=
  match prev with
  | none => true
  | some p =>
      p.status != next.status || p.lastRole != next.lastRole ||
      p.hasPendingToolUse != next.hasPendingToolUse

/-! ## Session watcher (watcher.ts)

The watcher's private `Map`s become association lists keyed by session id;
the `SessionState` record keeps the fields that the signal handlers and the
status path of `handleFile` read or write.  File-system reading, metadata
extraction and git lookup live in `parser.ts` and `git.ts`, which only set
the identity/metadata fields; they enter the model as parameters. -/

/-- `PendingPermission` from watcher.ts. -/
structure PendingPermission where
  sessionId : String
  toolName : String
  pendingSince : String
deriving Repr, DecidableEq

/-- `StopSignal` from watcher.ts. -/
structure StopSignal where
  sessionId : String
  stoppedAt : String
deriving Repr, DecidableEq

/-- `SessionEndSignal` from watcher.ts. -/
structure SessionEndSignal where
  sessionId : String
  endedAt : String
deriving Repr, DecidableEq

/-- `SessionState` from watcher.ts, restricted to the fields touched by
`handleSignalFile` and by the status/signal path of `handleFile`
(filepath, cwd, git and prompt metadata are carried unchanged by those
paths and are omitted). -/
structure SessionState where
  sessionId : String
  status : StatusResult
  entries : List LogEntry
  bytePosition : Nat
  pendingPermission : Option PendingPermission
  hasStopSignal : Bool
  hasEndedSignal : Bool
deriving Repr, DecidableEq

/-- Insert or replace the binding of `k` in an association list
(`Map.prototype.set`). -/
def mapSet {α : Type} (k : String) (v : α) (m : List (String × α)) :
    List (String × α) :=
  (k, v) :: m.filter (fun p => p.1 != k)

/-- Remove the binding of `k` (`Map.prototype.delete`). -/
def mapDelete {α : Type} (k : String) (m : List (String × α)) :
    List (String × α) :=
  m.filter (fun p => p.1 != k)

/-- Look up `k` (`Map.prototype.get`). -/
def mapGet {α : Type} (k : String) (m : List (String × α)) : Option α :=
  (m.find? (fun p => p.1 == k)).map (fun p => p.2)

/-- Membership test (`Map.prototype.has`). -/
def mapHas {α : Type} (k : String) (m : List (String × α)) : Bool :=
  (mapGet k m).isSome

/-- The watcher's four private maps (`sessions`, `pendingPermissions`,
`stopSignals`, `endedSignals`). -/
structure WatcherState where
  sessions : List (String × SessionState)
  pendingPermissions : List (String × PendingPermission)
  stopSignals : List (String × StopSignal)
  endedSignals : List (String × SessionEndSignal)
deriving Repr, DecidableEq

/-- A successfully parsed signal file's payload, tagged by the kind the
filename encodes (`<sessionId>.<kind>.json`). -/
inductive SignalData where
  | permission (p : PendingPermission)
  | stop (s : StopSignal)
  | ended (e : SessionEndSignal)
deriving Repr, DecidableEq

/-- `handleSignalFile` from watcher.ts, for a signal file whose name
parsed and whose JSON body parsed (the source ignores the other cases).
Event emission is not modelled; only the state mutations are. -/
def handleSignalFile (w : WatcherState) (sessionId : String) :
    SignalData → WatcherState
  | .permission p =>
    let w1 := { w with pendingPermissions := mapSet sessionId p w.pendingPermissions }
    match mapGet sessionId w.sessions with
    | some session =>
      let session1 := { session with
        pendingPermission := some p
        status := { session.status with status := .waiting, hasPendingToolUse := true } }
      { w1 with sessions := mapSet sessionId session1 w1.sessions }
    | none => w1
  | .stop s =>
    let w1 := { w with stopSignals := mapSet sessionId s w.stopSignals
                       pendingPermissions := mapDelete sessionId w.pendingPermissions }
    match mapGet sessionId w.sessions with
    | some session =>
      let session1 := { session with
        hasStopSignal := true
        pendingPermission := none
        status := { session.status with status := .waiting, hasPendingToolUse := false } }
      { w1 with sessions := mapSet sessionId session1 w1.sessions }
    | none => w1
  | .ended e =>
    let w1 := { w with endedSignals := mapSet sessionId e w.endedSignals
                       pendingPermissions := mapDelete sessionId w.pendingPermissions
                       stopSignals := mapDelete sessionId w.stopSignals }
    match mapGet sessionId w.sessions with
    | some session =>
      let session1 := { session with
        hasEndedSignal := true
        hasStopSignal := false
        pendingPermission := none
        status := { session.status with status := .idle, hasPendingToolUse := false } }
      { w1 with sessions := mapSet sessionId session1 w1.sessions }
    | none => w1

/-- The `hasToolResult` detector of `handleFile`: a user entry whose array
content contains a `tool_result` block. -/
def entryHasToolResult : LogEntry → Bool
  | .user _ (.blocks bs) => bs.any isToolResultBlock
  | _ => false

/-- The `hasUserPrompt` detector of `handleFile`: a user entry whose
content is a plain string. -/
def entryIsUserPromptString : LogEntry → Bool
  | .user _ (.str _) => true
  | _ => false

/-- `clearPendingPermission` from watcher.ts (the signal-file unlink is
I/O and is not modelled). -/
def clearPendingPermission (w : WatcherState) (sessionId : String) : WatcherState :=
  if mapHas sessionId w.pendingPermissions then
    { w with pendingPermissions := mapDelete sessionId w.pendingPermissions }
  else w

/-- `clearStopSignal` from watcher.ts (again without the file unlink). -/
def clearStopSignal (w : WatcherState) (sessionId : String) : WatcherState :=
  if mapHas sessionId w.stopSignals then
    { w with stopSignals := mapDelete sessionId w.stopSignals }
  else w

/-- The accumulated entry list a change-handling pass derives status over:
`existingSession ? [...existingSession.entries, ...newEntries] : newEntries`. -/
def sessionAllEntries (w : WatcherState) (sessionId : String)
    (newEntries : List LogEntry) : List LogEntry :=
  match mapGet sessionId w.sessions with
  | some s => s.entries ++ newEntries
  | none => newEntries

/-- The permission-clearing step of `handleFile`: when a newly appended
entry is a tool result and a permission signal is held for the session,
clear it (`hasToolResult && this.pendingPermissions.has(sessionId)`). -/
def handleFilePermClear (w : WatcherState) (sessionId : String)
    (newEntries : List LogEntry) : WatcherState :=
  if newEntries.any entryHasToolResult && mapHas sessionId w.pendingPermissions then
    clearPendingPermission w sessionId
  else w

/-- The stop-clearing step of `handleFile`: when a newly appended entry is
a plain-string user prompt and a stop signal is held, clear it
(`hasUserPrompt && this.stopSignals.has(sessionId)`). -/
def handleFileStopClear (w : WatcherState) (sessionId : String)
    (newEntries : List LogEntry) : WatcherState :=
  if newEntries.any entryIsUserPromptString && mapHas sessionId w.stopSignals then
    clearStopSignal w sessionId
  else w

/-- One change-handling pass of `handleFile` from watcher.ts, after the
incremental read returned `newEntries` ending at byte `newPosition`.
`metadataAvailable` stands for `extractMetadata(allEntries)` (parser.ts,
outside the modelled sources) succeeding for a brand-new session; git
lookup only fills metadata fields and is omitted.  The pass: early-return
when nothing new arrived for a known session, or when a new session lacks
metadata; clear the held permission signal when a new entry is a tool
result; clear the held stop signal when a new entry is a plain user
prompt; derive status over all accumulated entries; override the status
when a permission signal is (still) held; store the rebuilt session. -/
def handleFile (parseTime : String → Int) (now : Int) (w : WatcherState)
    (sessionId : String) (newEntries : List LogEntry) (newPosition : Nat)
    (metadataAvailable : Bool) : WatcherState :=
  let existingSession := mapGet sessionId w.sessions
  if newEntries.isEmpty && existingSession.isSome then
    w
  else if existingSession.isNone && !metadataAvailable then
    w
  else
    let allEntries := sessionAllEntries w sessionId newEntries
    let w2 := handleFileStopClear (handleFilePermClear w sessionId newEntries)
      sessionId newEntries
    let status0 := deriveStatus parseTime now allEntries
    let pendingPermission := mapGet sessionId w2.pendingPermissions
    let status :=
      match pendingPermission with
      | some _ => { status0 with status := .waiting, hasPendingToolUse := true }
      | none => status0
    let session : SessionState := {
      sessionId := sessionId
      status := status
      entries := allEntries
      bytePosition := newPosition
      pendingPermission := pendingPermission
      hasStopSignal := mapHas sessionId w2.stopSignals
      hasEndedSignal := mapHas sessionId w2.endedSignals }
    { w2 with sessions := mapSet sessionId session w2.sessions }

/-! ## Theorems -/

/-- C1: every state/event pair of the §4.2 transition table yields exactly
the listed target state and context effect: USER_PROMPT, ASSISTANT_STREAMING,
ASSISTANT_TOOL_USE, TOOL_RESULT, TURN_END and both synthetic timeouts in
`working`; TOOL_RESULT in `waiting_for_approval`; USER_PROMPT,
ASSISTANT_STREAMING and TURN_END in `waiting_for_input`.  In particular
TOOL_RESULT in `working` stays `working`, bumps activity and count, removes
the resolved identifiers from the pending set and sets the pending flag to
whether the remaining set is non-empty, and TURN_END in `working` moves to
`waiting_for_input` and clears the pending-tool state. -/
theorem transition_table_correct (ctx : StatusContext) (ts : String)
    (ids : List String) :
    step .working ctx (.userPrompt ts) =
      (.working, { ctx with lastActivityAt := ts, messageCount := ctx.messageCount + 1
                            hasPendingToolUse := false, pendingToolIds := [] }) ∧
    step .working ctx (.assistantStreaming ts) =
      (.working, { ctx with lastActivityAt := ts }) ∧
    step .working ctx (.assistantToolUse ts ids) =
      (.working, { ctx with lastActivityAt := ts, messageCount := ctx.messageCount + 1
                            hasPendingToolUse := true, pendingToolIds := ids }) ∧
    step .working ctx (.toolResult ts ids) =
      (.working,
        { ctx with lastActivityAt := ts, messageCount := ctx.messageCount + 1
                   pendingToolIds := ctx.pendingToolIds.filter (fun i => !(ids.contains i))
                   hasPendingToolUse :=
                     decide ((ctx.pendingToolIds.filter (fun i => !(ids.contains i))).length > 0) }) ∧
    ((step .working ctx (.toolResult ts ids)).2.hasPendingToolUse = true ↔
      (step .working ctx (.toolResult ts ids)).2.pendingToolIds ≠ []) ∧
    step .working ctx (.turnEnd ts) =
      (.waiting_for_input,
        { ctx with lastActivityAt := ts
                   hasPendingToolUse := false, pendingToolIds := [] }) ∧
    step .working ctx .approvalTimeout = (.waiting_for_approval, ctx) ∧
    step .working ctx .staleTimeout =
      (.waiting_for_input, { ctx with hasPendingToolUse := false }) ∧
    step .waiting_for_approval ctx (.toolResult ts ids) =
      (.working,
        { ctx with lastActivityAt := ts, messageCount := ctx.messageCount + 1
                   pendingToolIds := ctx.pendingToolIds.filter (fun i => !(ids.contains i))
                   hasPendingToolUse :=
                     decide ((ctx.pendingToolIds.filter (fun i => !(ids.contains i))).length > 0) }) ∧
    step .waiting_for_input ctx (.userPrompt ts) =
      (.working, { ctx with lastActivityAt := ts, messageCount := ctx.messageCount + 1 }) ∧
    step .waiting_for_input ctx (.assistantStreaming ts) =
      (.waiting_for_input, { ctx with lastActivityAt := ts }) ∧
    step .waiting_for_input ctx (.turnEnd ts) =
      (.waiting_for_input, { ctx with lastActivityAt := ts }) := by
  refine ⟨rfl, rfl, rfl, rfl, ?_, rfl, rfl, rfl, rfl, rfl, rfl, rfl⟩
  simp [step, List.length_pos]

/-- C6: status derivation is deterministic — two evaluations over the
identical entry list at the same evaluation instant yield the identical
status/context pair, and the replay has no hidden state: replaying any
extension of a prefix continues deterministically from the prefix's
replay result. -/
theorem derive_deterministic (parseTime : String → Int) (now : Int)
    (entries xs ys : List LogEntry) :
    deriveStatusFromMachine parseTime now entries =
      deriveStatusFromMachine parseTime now entries ∧
    replayMachine (xs ++ ys) = ys.foldl applyEntry (replayMachine xs) := by
  exact ⟨rfl, by simp [replayMachine, List.foldl_append]⟩

/-- C7: deriving status from an empty entry list is well-defined at every
evaluation instant: status `waiting`, no pending tool use, message count 0
and an empty last-activity timestamp. -/
theorem derive_empty_entries (parseTime : String → Int) (now : Int) :
    deriveStatus parseTime now [] =
      { status := .waiting, lastRole := .assistant, hasPendingToolUse := false
        lastActivityAt := "", messageCount := 0 } := rfl

/-- C10: the derived `StatusResult` always carries `lastRole = assistant`,
so `statusChanged` between two derived results reduces to comparing the
status value and the pending-tool flag — its `lastRole` comparison alone
can never report a change. -/
theorem lastRole_always_assistant (pt pt2 : String → Int) (now now2 : Int)
    (entries entries2 : List LogEntry) :
    (deriveStatus pt now entries).lastRole = Role.assistant ∧
    statusChanged (some (deriveStatus pt now entries)) (deriveStatus pt2 now2 entries2) =
      ((deriveStatus pt now entries).status != (deriveStatus pt2 now2 entries2).status ||
       (deriveStatus pt now entries).hasPendingToolUse !=
         (deriveStatus pt2 now2 entries2).hasPendingToolUse) := by
  refine ⟨rfl, ?_⟩
  have h1 : (deriveStatus pt now entries).lastRole = Role.assistant := rfl
  have h2 : (deriveStatus pt2 now2 entries2).lastRole = Role.assistant := rfl
  simp [statusChanged, h1, h2]

/-- C2: for every entry list whose replay ends in `working` with a pending
tool call, and every evaluation instant, the derivation ends in
`waiting_for_approval` if and only if the elapsed time since the last
activity exceeds the 15-second approval threshold; at or below the
threshold the status remains `working`. -/
theorem approval_timeout_iff (parseTime : String → Int) (now : Int)
    (entries : List LogEntry)
    (hst : (replayMachine entries).1 = StatusState.working)
    (hpend : (replayMachine entries).2.hasPendingToolUse = true) :
    ((deriveStatusFromMachine parseTime now entries).1 = StatusState.waiting_for_approval ↔
      now - lastActivityTime parseTime (replayMachine entries).2.lastActivityAt >
        APPROVAL_TIMEOUT_MS) ∧
    (now - lastActivityTime parseTime (replayMachine entries).2.lastActivityAt ≤
        APPROVAL_TIMEOUT_MS →
      (deriveStatusFromMachine parseTime now entries).1 = StatusState.working) := by
  unfold deriveStatusFromMachine
  rcases hrep : replayMachine entries with ⟨st, ctx⟩
  rw [hrep] at hst hpend
  dsimp only at hst hpend
  subst hst
  dsimp only
  by_cases hgt : now - lastActivityTime parseTime ctx.lastActivityAt > APPROVAL_TIMEOUT_MS
  · rw [if_pos ⟨rfl, hpend, hgt⟩]
    constructor
    · simp [step, hgt]
    · intro hle
      exact absurd hgt (not_lt.mpr hle)
  · rw [if_neg (fun h => hgt h.2.2),
        if_neg (fun h => by rw [hpend] at h; exact absurd h.2.1 (by simp))]
    constructor
    · constructor
      · intro h
        exact absurd h (by simp)
      · intro h
        exact absurd h hgt
    · intro _
      rfl

/-- A plain-text user prompt entry used as a concrete sample. -/
def sampleUserPrompt : LogEntry := .user "t0" (.str "please run the build")

/-- An assistant entry with one non-auto-approved tool call. -/
def sampleAssistantToolUse : LogEntry := .assistant "t1" [.toolUse "tool-1" "Bash"]

/-- A user entry resolving that tool call with a tool-result block. -/
def sampleToolResult : LogEntry := .user "t2" (.blocks [.toolResult "tool-1" "ok"])

/-- Witness for `approval_timeout_iff`: a prompt followed by a pending tool
call, evaluated 20 seconds after the last activity, ends in
`waiting_for_approval`. -/
theorem approval_timeout_iff_witness :
    (deriveStatusFromMachine (fun _ => 0) 20000
        [sampleUserPrompt, sampleAssistantToolUse]).1 =
      StatusState.waiting_for_approval :=
  (approval_timeout_iff (fun _ => 0) 20000 [sampleUserPrompt, sampleAssistantToolUse]
      rfl rfl).1.mpr (by decide)

/-- Spec-shaped extraction of one assistant block's approval-relevant tool
identifier: the call id when the block is a tool invocation whose tool
name is outside the auto-approved set, nothing otherwise. -/
def nonAutoToolUseId : AssistantContentBlock → Option String
  | .toolUse id name => if autoApprovedTools.contains name then none else some id
  | _ => none

lemma filter_map_eq_filterMap (cs : List AssistantContentBlock) :
    (cs.filter isNonAutoToolUse).map assistantBlockId = cs.filterMap nonAutoToolUseId := by
  induction cs with
  | nil => rfl
  | cons b cs ih =>
    cases b with
    | text t =>
      simpa [isNonAutoToolUse, nonAutoToolUseId, List.filter_cons, List.filterMap_cons] using ih
    | thinking t =>
      simpa [isNonAutoToolUse, nonAutoToolUseId, List.filter_cons, List.filterMap_cons] using ih
    | toolUse id nm =>
      cases h : autoApprovedTools.contains nm with
      | true =>
        have hmem : nm ∈ autoApprovedTools := by simpa using h
        simp [isNonAutoToolUse, nonAutoToolUseId, List.filter_cons, List.filterMap_cons,
              h, hmem, ih]
      | false =>
        have hmem : nm ∉ autoApprovedTools := by simpa using h
        simp [isNonAutoToolUse, nonAutoToolUseId, assistantBlockId,
              List.filter_cons, List.filterMap_cons, h, hmem, ih]

/-- C4: event extraction on an assistant entry yields ASSISTANT_TOOL_USE
carrying exactly the identifiers of its tool-invocation blocks whose tool
name is not auto-approved whenever at least one such block exists, and
ASSISTANT_STREAMING otherwise (in particular when the entry contains only
auto-approved tool calls). -/
theorem assistant_event_extraction (ts : String) (cs : List AssistantContentBlock) :
    logEntryToEvent (.assistant ts cs) =
      if (cs.filterMap nonAutoToolUseId).isEmpty then
        some (.assistantStreaming ts)
      else
        some (.assistantToolUse ts (cs.filterMap nonAutoToolUseId)) := by
  simp only [logEntryToEvent]
  rw [← filter_map_eq_filterMap]
  rcases h : cs.filter isNonAutoToolUse with _ | ⟨b, bs⟩
  · simp [h]
  · simp [h]

/-- Spec-shaped extraction of the resolved tool-call identifiers of a user
content array: the `tool_use_id`s of its tool-result blocks, in order. -/
def userToolResultIds (bs : List UserContentBlock) : List String :=
  bs.filterMap (fun b => match b with | .toolResult id _ => some id | _ => none)

lemma filter_map_toolResult (bs : List UserContentBlock) :
    (bs.filter isToolResultBlock).map toolResultId = userToolResultIds bs := by
  induction bs with
  | nil => rfl
  | cons b bs ih =>
    cases b with
    | text t =>
      simpa [isToolResultBlock, userToolResultIds, List.filter_cons, List.filterMap_cons] using ih
    | image mt d =>
      simpa [isToolResultBlock, userToolResultIds, List.filter_cons, List.filterMap_cons] using ih
    | toolResult id c =>
      simp [isToolResultBlock, userToolResultIds, toolResultId,
            List.filter_cons, List.filterMap_cons]
      simpa [userToolResultIds] using ih

/-- C5 (amended): event extraction on a user entry yields USER_PROMPT for
plain-string content; TOOL_RESULT carrying the resolved tool-call
identifiers when the content array contains at least one tool-result
block; USER_PROMPT when the array contains no tool-result block but at
least one text block; and no event at all when the array contains neither
(in particular, an array of only image blocks yields no event). -/
theorem user_event_extraction (ts s : String) (bs : List UserContentBlock) :
    logEntryToEvent (.user ts (.str s)) = some (.userPrompt ts) ∧
    logEntryToEvent (.user ts (.blocks bs)) =
      (if bs.any isToolResultBlock then some (.toolResult ts (userToolResultIds bs))
       else if bs.any isTextBlock then some (.userPrompt ts)
       else none) := by
  refine ⟨rfl, ?_⟩
  simp only [logEntryToEvent]
  rw [← filter_map_toolResult]
  rcases h : bs.filter isToolResultBlock with _ | ⟨b, l⟩
  · have hany : bs.any isToolResultBlock = false := by
      rw [List.any_eq_false]
      intro x hx
      exact fun hpx => by
        have := List.mem_filter.mpr ⟨hx, hpx⟩
        rw [h] at this
        exact absurd this (List.not_mem_nil x)
    simp [h, hany]
  · have hb : b ∈ bs.filter isToolResultBlock := by
      rw [h]
      exact List.mem_cons_self b l
    have hany : bs.any isToolResultBlock = true :=
      List.any_eq_true.mpr ⟨b, List.mem_of_mem_filter hb, List.of_mem_filter hb⟩
    simp [h, hany]

/-- C5 counterexample: a user entry whose content array consists solely of
an image block yields no event — not USER_PROMPT as the claim states. -/
theorem image_only_no_event_counterexample :
    logEntryToEvent (.user "t9" (.blocks [.image "image/png" "ZGF0YQ"])) = none ∧
    logEntryToEvent (.user "t9" (.blocks [.image "image/png" "ZGF0YQ"])) ≠
      some (.userPrompt "t9") := by
  exact ⟨rfl, by decide⟩

/-- C8 counterexample: the two-entry list of an assistant tool call
followed by its tool result, replayed from the machine's initial
`waiting_for_input` state, derives status `waiting` (both events are
unhandled in `waiting_for_input`), not `working` as the claim states. -/
theorem two_entry_list_waiting_counterexample :
    (deriveStatus (fun _ => 0) 0
        [sampleAssistantToolUse, sampleToolResult]).status = SessionStatus.waiting ∧
    (deriveStatus (fun _ => 0) 0 [sampleAssistantToolUse, sampleToolResult]).status ≠
      SessionStatus.working := by
  exact ⟨rfl, by decide⟩

/-- C8 (amended): prepending the turn's plain-text user prompt, an entry
list of a user prompt, an assistant entry with one non-auto-approved tool
call and a user entry whose content is a tool-result block referencing
that call's identifier derives status `working` with pending-tool false,
when evaluated before any timeout elapses. -/
theorem tool_result_returns_working (pt : String → Int) (now : Int)
    (ts1 ts2 ts3 prompt id nm rc : String)
    (hname : autoApprovedTools.contains nm = false)
    (hnow : now - lastActivityTime pt ts3 ≤ STALE_TIMEOUT_MS) :
    (deriveStatus pt now
        [.user ts1 (.str prompt), .assistant ts2 [.toolUse id nm],
         .user ts3 (.blocks [.toolResult id rc])]).status = SessionStatus.working ∧
    (deriveStatus pt now
        [.user ts1 (.str prompt), .assistant ts2 [.toolUse id nm],
         .user ts3 (.blocks [.toolResult id rc])]).hasPendingToolUse = false := by
  have hmem : nm ∉ autoApprovedTools := by simpa using hname
  have h2 : logEntryToEvent (.assistant ts2 [.toolUse id nm]) =
      some (.assistantToolUse ts2 [id]) := by
    simp [logEntryToEvent, isNonAutoToolUse, hname, hmem, assistantBlockId,
          List.filter_cons]
  have h3 : logEntryToEvent (.user ts3 (.blocks [.toolResult id rc])) =
      some (.toolResult ts3 [id]) := by
    simp [logEntryToEvent, isToolResultBlock, toolResultId, List.filter_cons]
  have e1eq : applyEntry (initialState, initialContext) (.user ts1 (.str prompt)) =
      (.working, { lastActivityAt := ts1, messageCount := 1
                   hasPendingToolUse := false, pendingToolIds := [] }) := rfl
  have e2eq : applyEntry
      (StatusState.working,
        { lastActivityAt := ts1, messageCount := 1
          hasPendingToolUse := false, pendingToolIds := [] })
      (.assistant ts2 [.toolUse id nm]) =
      (.working, { lastActivityAt := ts2, messageCount := 2
                   hasPendingToolUse := true, pendingToolIds := [id] }) := by
    unfold applyEntry
    rw [h2]
    rfl
  have e3eq : applyEntry
      (StatusState.working,
        { lastActivityAt := ts2, messageCount := 2
          hasPendingToolUse := true, pendingToolIds := [id] })
      (.user ts3 (.blocks [.toolResult id rc])) =
      (.working, { lastActivityAt := ts3, messageCount := 3
                   hasPendingToolUse := false, pendingToolIds := [] }) := by
    unfold applyEntry
    rw [h3]
    simp [step, List.filter_cons]
  have hrep : replayMachine
      [.user ts1 (.str prompt), .assistant ts2 [.toolUse id nm],
       .user ts3 (.blocks [.toolResult id rc])] =
      (.working, { lastActivityAt := ts3, messageCount := 3
                   hasPendingToolUse := false, pendingToolIds := [] }) := by
    show applyEntry (applyEntry (applyEntry (initialState, initialContext)
        (.user ts1 (.str prompt))) (.assistant ts2 [.toolUse id nm]))
        (.user ts3 (.blocks [.toolResult id rc])) =
      (.working, { lastActivityAt := ts3, messageCount := 3
                   hasPendingToolUse := false, pendingToolIds := [] })
    rw [e1eq, e2eq, e3eq]
  unfold deriveStatus deriveStatusFromMachine
  rw [hrep]
  dsimp only
  rw [if_neg (fun h => by exact absurd h.2.1 (by simp)),
      if_neg (fun h => absurd h.2.2 (not_lt.mpr hnow))]
  constructor
  · simp [machineStatusToResult]
  · rfl

/-- Witness for `tool_result_returns_working` at concrete entries and an
evaluation instant equal to the last activity time. -/
theorem tool_result_returns_working_witness :
    (deriveStatus (fun _ => 0) 0
        [LogEntry.user "t0" (.str "go"),
         LogEntry.assistant "t1" [.toolUse "tool-1" "Bash"],
         LogEntry.user "t2" (.blocks [.toolResult "tool-1" "ok"])]).status =
      SessionStatus.working ∧
    (deriveStatus (fun _ => 0) 0
        [LogEntry.user "t0" (.str "go"),
         LogEntry.assistant "t1" [.toolUse "tool-1" "Bash"],
         LogEntry.user "t2" (.blocks [.toolResult "tool-1" "ok"])]).hasPendingToolUse =
      false :=
  tool_result_returns_working (fun _ => 0) 0 "t0" "t1" "t2" "go" "tool-1" "Bash" "ok"
    (by decide) (by decide)

lemma mapGet_mapSet_self {α : Type} (k : String) (v : α) (m : List (String × α)) :
    mapGet k (mapSet k v m) = some v := by
  simp [mapGet, mapSet]

lemma mapGet_mapDelete_self {α : Type} (k : String) (m : List (String × α)) :
    mapGet k (mapDelete k m) = none := by
  induction m with
  | nil => rfl
  | cons a m ih =>
    by_cases h : a.1 = k
    · rw [mapDelete, List.filter_cons, if_neg (by simp [h])]
      exact ih
    · rw [mapDelete, List.filter_cons, if_pos (by simp [h])]
      rw [mapDelete] at ih
      have hbeq : (a.1 == k) = false := by simp [h]
      rw [mapGet, List.find?_cons, hbeq]
      exact ih

lemma mapGet_eq_none_of_not_has {α : Type} (k : String) (m : List (String × α))
    (h : mapHas k m = false) : mapGet k m = none := by
  unfold mapHas at h
  cases hg : mapGet k m with
  | none => rfl
  | some v => rw [hg] at h; simp at h

/-- C3: processing a `stop` signal removes the held permission signal and,
when a session exists, stores it as waiting with pending-tool false and
the stop flag set; processing an `ended` signal removes both the held
permission and stop signals and, when a session exists, stores it as idle
with pending-tool false; processing a `permission` signal stores the
signal and, when a session exists, stores it as waiting with pending-tool
true. -/
theorem signal_overrides (w w2 : WatcherState) (sid sid2 : String)
    (p : PendingPermission) (ss : StopSignal) (es : SessionEndSignal)
    (s : SessionState) (hs : mapGet sid w.sessions = some s) :
    (mapGet sid2 (handleSignalFile w2 sid2 (.stop ss)).pendingPermissions = none ∧
     mapGet sid2 (handleSignalFile w2 sid2 (.ended es)).pendingPermissions = none ∧
     mapGet sid2 (handleSignalFile w2 sid2 (.ended es)).stopSignals = none ∧
     mapGet sid2 (handleSignalFile w2 sid2 (.permission p)).pendingPermissions = some p) ∧
    (mapGet sid (handleSignalFile w sid (.stop ss)).sessions =
       some { s with hasStopSignal := true, pendingPermission := none
                     status := { s.status with status := .waiting
                                               hasPendingToolUse := false } }) ∧
    (mapGet sid (handleSignalFile w sid (.ended es)).sessions =
       some { s with hasEndedSignal := true, hasStopSignal := false
                     pendingPermission := none
                     status := { s.status with status := .idle
                                               hasPendingToolUse := false } }) ∧
    (mapGet sid (handleSignalFile w sid (.permission p)).sessions =
       some { s with pendingPermission := some p
                     status := { s.status with status := .waiting
                                               hasPendingToolUse := true } }) := by
  refine ⟨?_, ?_, ?_, ?_⟩
  · cases hE : mapGet sid2 w2.sessions <;>
      simp [handleSignalFile, hE, mapGet_mapDelete_self, mapGet_mapSet_self]
  · simp [handleSignalFile, hs, mapGet_mapSet_self]
  · simp [handleSignalFile, hs, mapGet_mapSet_self]
  · simp [handleSignalFile, hs, mapGet_mapSet_self]

/-- A concrete permission signal payload. -/
def samplePermission : PendingPermission :=
  { sessionId := "s1", toolName := "Bash", pendingSince := "t1" }

/-- A concrete stop signal payload. -/
def sampleStop : StopSignal := { sessionId := "s1", stoppedAt := "t2" }

/-- A concrete session-end signal payload. -/
def sampleEnded : SessionEndSignal := { sessionId := "s1", endedAt := "t3" }

/-- A concrete derived status. -/
def sampleResult : StatusResult :=
  { status := .working, lastRole := .assistant, hasPendingToolUse := false
    lastActivityAt := "t1", messageCount := 2 }

/-- A concrete tracked session. -/
def sampleSession : SessionState :=
  { sessionId := "s1", status := sampleResult, entries := [sampleUserPrompt]
    bytePosition := 10, pendingPermission := none
    hasStopSignal := false, hasEndedSignal := false }

/-- A concrete watcher state tracking that session, with a held permission
signal and a held stop signal for it. -/
def sampleWatcher : WatcherState :=
  { sessions := [("s1", sampleSession)]
    pendingPermissions := [("s1", samplePermission)]
    stopSignals := [("s1", sampleStop)]
    endedSignals := [] }

/-- Witness for `signal_overrides`: the stop-signal case at the concrete
watcher state. -/
theorem signal_overrides_witness :
    mapGet "s1" (handleSignalFile sampleWatcher "s1" (.stop sampleStop)).pendingPermissions =
      none ∧
    mapGet "s1" (handleSignalFile sampleWatcher "s1" (.stop sampleStop)).sessions =
      some { sampleSession with
               hasStopSignal := true, pendingPermission := none
               status := { sampleSession.status with status := .waiting
                                                     hasPendingToolUse := false } } :=
  ⟨(signal_overrides sampleWatcher sampleWatcher "s1" "s1" samplePermission
      sampleStop sampleEnded sampleSession rfl).1.1,
   (signal_overrides sampleWatcher sampleWatcher "s1" "s1" samplePermission
      sampleStop sampleEnded sampleSession rfl).2.1⟩

lemma clearPendingPermission_get_none (w : WatcherState) (sid : String) :
    mapGet sid (clearPendingPermission w sid).pendingPermissions = none := by
  unfold clearPendingPermission
  cases h : mapHas sid w.pendingPermissions with
  | true => simp [mapGet_mapDelete_self]
  | false => simpa using mapGet_eq_none_of_not_has sid w.pendingPermissions h

lemma clearPendingPermission_stopSignals (w : WatcherState) (sid : String) :
    (clearPendingPermission w sid).stopSignals = w.stopSignals := by
  unfold clearPendingPermission
  split <;> rfl

lemma clearStopSignal_get_none (w : WatcherState) (sid : String) :
    mapGet sid (clearStopSignal w sid).stopSignals = none := by
  unfold clearStopSignal
  cases h : mapHas sid w.stopSignals with
  | true => simp [mapGet_mapDelete_self]
  | false => simpa using mapGet_eq_none_of_not_has sid w.stopSignals h

lemma clearStopSignal_pendingPermissions (w : WatcherState) (sid : String) :
    (clearStopSignal w sid).pendingPermissions = w.pendingPermissions := by
  unfold clearStopSignal
  split <;> rfl

lemma permClear_get_none (w : WatcherState) (sid : String)
    (newEntries : List LogEntry) (hTR : newEntries.any entryHasToolResult = true) :
    mapGet sid (handleFilePermClear w sid newEntries).pendingPermissions = none := by
  unfold handleFilePermClear
  rw [hTR]
  cases h : mapHas sid w.pendingPermissions with
  | true => simpa using clearPendingPermission_get_none w sid
  | false => simpa using mapGet_eq_none_of_not_has sid w.pendingPermissions h

lemma permClear_stopSignals (w : WatcherState) (sid : String)
    (newEntries : List LogEntry) :
    (handleFilePermClear w sid newEntries).stopSignals = w.stopSignals := by
  unfold handleFilePermClear
  split
  · exact clearPendingPermission_stopSignals w sid
  · rfl

lemma stopClear_get_none (w : WatcherState) (sid : String)
    (newEntries : List LogEntry) (hUP : newEntries.any entryIsUserPromptString = true) :
    mapGet sid (handleFileStopClear w sid newEntries).stopSignals = none := by
  unfold handleFileStopClear
  rw [hUP]
  cases h : mapHas sid w.stopSignals with
  | true => simpa using clearStopSignal_get_none w sid
  | false => simpa using mapGet_eq_none_of_not_has sid w.stopSignals h

lemma stopClear_pendingPermissions (w : WatcherState) (sid : String)
    (newEntries : List LogEntry) :
    (handleFileStopClear w sid newEntries).pendingPermissions = w.pendingPermissions := by
  unfold handleFileStopClear
  split
  · exact clearStopSignal_pendingPermissions w sid
  · rfl

lemma any_true_not_isEmpty {α : Type} (l : List α) (p : α → Bool)
    (h : l.any p = true) : l.isEmpty = false := by
  cases l with
  | nil => simp at h
  | cons a l => rfl

/-- C9: within one change-handling pass that proceeds (a tracked session
exists, or metadata is available for a new one), a newly appended user
entry containing a tool-result block clears the held permission signal
before status re-derivation, so the stored status is the log-derived
status with no permission override and the stored session holds no
permission; likewise a newly appended plain-text user prompt clears the
held stop signal in the same pass, so the stored session's stop flag is
false and the signal is gone. -/
theorem change_pass_clears_signals (pt : String → Int) (now : Int)
    (w : WatcherState) (sid : String) (newEntries : List LogEntry)
    (pos : Nat) (meta : Bool)
    (hproceed : mapHas sid w.sessions = true ∨ meta = true) :
    (newEntries.any entryHasToolResult = true →
      Option.map SessionState.status
          (mapGet sid (handleFile pt now w sid newEntries pos meta).sessions) =
        some (deriveStatus pt now (sessionAllEntries w sid newEntries)) ∧
      Option.map SessionState.pendingPermission
          (mapGet sid (handleFile pt now w sid newEntries pos meta).sessions) =
        some none ∧
      mapGet sid (handleFile pt now w sid newEntries pos meta).pendingPermissions =
        none) ∧
    (newEntries.any entryIsUserPromptString = true →
      Option.map SessionState.hasStopSignal
          (mapGet sid (handleFile pt now w sid newEntries pos meta).sessions) =
        some false ∧
      mapGet sid (handleFile pt now w sid newEntries pos meta).stopSignals = none) := by
  have hgate : ((mapGet sid w.sessions).isNone && !meta) = false := by
    rcases hproceed with h | h
    · cases hg : mapGet sid w.sessions with
      | none => unfold mapHas at h; rw [hg] at h; simp at h
      | some s => simp
    · simp [h]
  constructor
  · intro hTR
    have hne : newEntries.isEmpty = false := any_true_not_isEmpty _ _ hTR
    have hpp : mapGet sid
        (handleFileStopClear (handleFilePermClear w sid newEntries) sid
          newEntries).pendingPermissions = none := by
      rw [stopClear_pendingPermissions]
      exact permClear_get_none w sid newEntries hTR
    unfold handleFile
    dsimp only
    rw [hne, hgate]
    simp only [Bool.false_and, if_neg Bool.false_ne_true, hpp]
    rw [mapGet_mapSet_self]
    simp
  · intro hUP
    have hne : newEntries.isEmpty = false := any_true_not_isEmpty _ _ hUP
    have hss : mapGet sid
        (handleFileStopClear (handleFilePermClear w sid newEntries) sid
          newEntries).stopSignals = none :=
      stopClear_get_none _ sid newEntries hUP
    have hhas : mapHas sid
        (handleFileStopClear (handleFilePermClear w sid newEntries) sid
          newEntries).stopSignals = false := by
      unfold mapHas
      rw [hss]
      rfl
    unfold handleFile
    dsimp only
    rw [hne, hgate]
    simp only [Bool.false_and, if_neg Bool.false_ne_true, hhas, hss]
    rw [mapGet_mapSet_self]
    simp

/-- Witness for `change_pass_clears_signals`: a pass appending a
tool-result entry and a fresh prompt to the concrete watcher state stores
the log-derived status, drops the held permission signal, and drops the
held stop signal. -/
theorem change_pass_clears_signals_witness :
    Option.map SessionState.status
        (mapGet "s1" (handleFile (fun _ => 0) 0 sampleWatcher "s1"
          [sampleToolResult, sampleUserPrompt] 20 true).sessions) =
      some (deriveStatus (fun _ => 0) 0
        (sessionAllEntries sampleWatcher "s1" [sampleToolResult, sampleUserPrompt])) ∧
    mapGet "s1" (handleFile (fun _ => 0) 0 sampleWatcher "s1"
        [sampleToolResult, sampleUserPrompt] 20 true).pendingPermissions = none ∧
    mapGet "s1" (handleFile (fun _ => 0) 0 sampleWatcher "s1"
        [sampleToolResult, sampleUserPrompt] 20 true).stopSignals = none :=
  ⟨((change_pass_clears_signals (fun _ => 0) 0 sampleWatcher "s1"
      [sampleToolResult, sampleUserPrompt] 20 true (Or.inr rfl)).1 rfl).1,
   ((change_pass_clears_signals (fun _ => 0) 0 sampleWatcher "s1"
      [sampleToolResult, sampleUserPrompt] 20 true (Or.inr rfl)).1 rfl).2.2,
   ((change_pass_clears_signals (fun _ => 0) 0 sampleWatcher "s1"
      [sampleToolResult, sampleUserPrompt] 20 true (Or.inr rfl)).2 rfl).2⟩

end Daemon
